import Mathlib

/-!
Shallow embedding of the spacedrive library-manager and shallow-indexer core
(src/core/src/library/manager.rs and src/core/src/location/indexer/shallow.rs),
together with theorems settling the frozen claims about it.

External effects (filesystem, database, key-manager crypto, channels) are made
explicit: the filesystem is a record of which per-library files exist, fallible
external calls are supplied as explicit `Except` results, and operations return
the resulting state together with a trace of the effects they performed, in
program order.
-/

namespace Spacedrive

/-- Library ids (uuid::Uuid in the source) are abstract: only equality and
rendering into file names matter to this core. -/
abbrev Uuid := Nat

/-- rustIsWhitespace models Rust's char::is_whitespace, i.e. the Unicode
White_Space property, used by create_with_uuid's name validation
(manager.rs:219). -/
def rustIsWhitespace (c : Char) : Bool :=
  let n := c.toNat
  (0x09 ≤ n && n ≤ 0x0D) || n == 0x20 || n == 0x85 || n == 0xA0 || n == 0x1680 ||
    (0x2000 ≤ n && n ≤ 0x200A) || n == 0x2028 || n == 0x2029 || n == 0x202F ||
    n == 0x205F || n == 0x3000

/-- CryptoError models sd_crypto::Error as far as seed_keymanager uses it:
the explicitly constructed Serialization variant (manager.rs:110-121) and an
abstract remainder. -/
inductive CryptoError
  | serialization
  | other (code : Nat)
  deriving DecidableEq, Repr

/-- LMError models LibraryManagerError (manager.rs:46-74); payloads are kept
only where a claim needs to distinguish errors. -/
inductive LMError
  | fileIo (path : String)
  | json
  | database (code : Nat)
  | libraryNotFound
  | migration (msg : String)
  | uuidErr
  | seeder
  | keyManager (e : CryptoError)
  | migratorError
  | migrationError
  | invalidConfig (msg : String)
  | nonUtf8Path
  | locationWatcher
  deriving DecidableEq, Repr

/-- LibraryConfig (name, description), the per-library config file contents. -/
structure LibraryConfig where
  name : String
  description : String
  deriving DecidableEq, Repr

/-- LibraryConfigWrapped pairs a library id with its config, as returned by
create_with_uuid and get_all_libraries_config. -/
structure LibraryConfigWrapped where
  uuid : Uuid
  config : LibraryConfig
  deriving DecidableEq, Repr

/-- Library models the loaded aggregate restricted to the fields the claims
observe: its id and its (mutable) config. The database/sync/key-manager
handles are shared resources with no state visible to these claims. -/
structure Library where
  id : Uuid
  config : LibraryConfig
  deriving DecidableEq, Repr

/-- FsState records which per-library files exist in the libraries directory:
`<id>.sdlibrary` config files (with their contents) and `<id>.db` database
files. -/
structure FsState where
  configFiles : List (Uuid × LibraryConfig)
  dbFiles : List Uuid
  deriving DecidableEq, Repr

def FsState.empty : FsState := ⟨[], []⟩

/-- writeConfig models LibraryConfig::save to `<id>.sdlibrary`: the file is
created or overwritten. -/
def FsState.writeConfig (fs : FsState) (id : Uuid) (cfg : LibraryConfig) : FsState :=
  { fs with configFiles := fs.configFiles.filter (fun p => p.1 != id) ++ [(id, cfg)] }

/-- createDb models load_and_migrate opening (and thereby creating) the
`<id>.db` file. -/
def FsState.createDb (fs : FsState) (id : Uuid) : FsState :=
  { fs with dbFiles := if fs.dbFiles.contains id then fs.dbFiles else fs.dbFiles ++ [id] }

/-- removeDb models fs::remove_file on `<id>.db`. -/
def FsState.removeDb (fs : FsState) (id : Uuid) : FsState :=
  { fs with dbFiles := fs.dbFiles.filter (fun d => d != id) }

/-- removeConfig models fs::remove_file on `<id>.sdlibrary`. -/
def FsState.removeConfig (fs : FsState) (id : Uuid) : FsState :=
  { fs with configFiles := fs.configFiles.filter (fun p => p.1 != id) }

/-- MgrState is the state a LibraryManager operation can touch: the libraries
directory contents, the registry `libraries: RwLock<Vec<Library>>`
(manager.rs:41), and the fire-and-forget invalidation signals emitted so far. -/
structure MgrState where
  fs : FsState
  libraries : List Library
  invalidations : List String
  deriving DecidableEq, Repr

def MgrState.empty : MgrState := ⟨FsState.empty, [], []⟩

/-- CreateEffect is one external effect of create_with_uuid, in program
order: persisting the config file (manager.rs:225), creating/opening the
database inside Self::load (manager.rs:230), seeding (manager.rs:239), the
invalidation signal (manager.rs:241) and the registry append
(manager.rs:243). -/
inductive CreateEffect
  | saveConfig (id : Uuid) (cfg : LibraryConfig)
  | createDb (id : Uuid)
  | seed
  | invalidate (q : String)
  | pushRegistry (id : Uuid)
  deriving DecidableEq, Repr

/-- CreateEnv supplies the results of the fallible external calls made by
create_with_uuid: LibraryConfig::save, Self::load (database open/migration,
node upsert, key-manager seeding, location watching) and
indexer_rules_seeder. -/
structure CreateEnv where
  saveRes : Except LMError Unit
  loadRes : Except LMError Unit
  seederRes : Except LMError Unit

/-- createWithUuid models LibraryManager::create_with_uuid
(manager.rs:214-245). It returns the call's result, the state after the call,
and the trace of effects performed, in order. An effect is recorded exactly
when the corresponding external call succeeded. -/
def createWithUuid (env : CreateEnv) (id : Uuid) (config : LibraryConfig)
    (st : MgrState) :
    Except LMError LibraryConfigWrapped × MgrState × List CreateEffect :=
  if config.name.isEmpty || config.name.data.all rustIsWhitespace then
    (.error (.invalidConfig "name cannot be empty"), st, [])
  else
    match env.saveRes with
    | .error e => (.error e, st, [])
    | .ok _ =>
      let st1 := { st with fs := st.fs.writeConfig id config }
      match env.loadRes with
      | .error e => (.error e, st1, [.saveConfig id config])
      | .ok _ =>
        let st2 := { st1 with fs := st1.fs.createDb id }
        match env.seederRes with
        | .error e => (.error e, st2, [.saveConfig id config, .createDb id])
        | .ok _ =>
          let st3 := { st2 with
            invalidations := st2.invalidations ++ ["library.list"]
            libraries := st2.libraries ++ [⟨id, config⟩] }
          (.ok ⟨id, config⟩, st3,
            [.saveConfig id config, .createDb id, .seed, .invalidate "library.list",
              .pushRegistry id])

/-- getAllLibrariesConfig models LibraryManager::get_all_libraries_config
(manager.rs:247-257): a read-lock snapshot of the registry mapped to wrapped
configs. -/
def getAllLibrariesConfig (st : MgrState) : List LibraryConfigWrapped :=
  st.libraries.map (fun lib => { config := lib.config, uuid := lib.id })

/-- applyCreateEffects applies a prefix of a create_with_uuid effect trace to
a filesystem, to express the on-disk state at a crash point between effects. -/
def applyCreateEffects (fs : FsState) : List CreateEffect → FsState
  | [] => fs
  | .saveConfig id cfg :: rest => applyCreateEffects (fs.writeConfig id cfg) rest
  | .createDb id :: rest => applyCreateEffects (fs.createDb id) rest
  | .seed :: rest => applyCreateEffects fs rest
  | .invalidate _ :: rest => applyCreateEffects fs rest
  | .pushRegistry _ :: rest => applyCreateEffects fs rest

/-- DeleteEnv supplies the outcomes of the two concurrent fs::remove_file
calls inside delete's try_join (manager.rs:330-341). -/
structure DeleteEnv where
  removeDbRes : Except LMError Unit
  removeConfigRes : Except LMError Unit

/-- deleteLib models LibraryManager::delete (manager.rs:319-348). Both file
removals are attempted by try_join; a removal that succeeded takes effect on
the filesystem even when the sibling removal fails. On any removal failure
the error is returned (the database-side error first, matching polling order)
and the registry is left untouched; only after both succeed is the
invalidation emitted and the entry retained out of the registry. -/
def deleteLib (env : DeleteEnv) (id : Uuid) (st : MgrState) :
    Except LMError Unit × MgrState :=
  match st.libraries.find? (fun l => l.id == id) with
  | none => (.error .libraryNotFound, st)
  | some library =>
    let fs1 := if env.removeDbRes.isOk then st.fs.removeDb library.id else st.fs
    let fs2 := if env.removeConfigRes.isOk then fs1.removeConfig library.id else fs1
    let st1 := { st with fs := fs2 }
    match env.removeDbRes, env.removeConfigRes with
    | .error e, _ => (.error e, st1)
    | .ok _, .error e => (.error e, st1)
    | .ok _, .ok _ =>
      (.ok (), { st1 with
        invalidations := st1.invalidations ++ ["library.list"]
        libraries := st1.libraries.filter (fun l => l.id != id) })

/-- EditOutcome: edit can return Ok or an error, or never return at all: once
the library is found and the config saved, the loop at manager.rs:291 awaits
`self.libraries.read()` while the write guard taken at manager.rs:270 is
still alive, which on a tokio RwLock never completes.  -/
inductive EditOutcome
  | ok
  | err (e : LMError)
  | hangs
  deriving DecidableEq, Repr

/-- updateFirst applies f to the first list element satisfying p (the
`iter_mut().find` at manager.rs:271-274). -/
def updateFirst (p : Library → Bool) (f : Library → Library) :
    List Library → List Library
  | [] => []
  | l :: rest => if p l then f l :: rest else l :: updateFirst p f rest

/-- editLib models LibraryManager::edit (manager.rs:263-317): under the write
lock, find the library (else LibraryNotFound), overwrite whichever of
name/description is present with NO validation, persist the config file, emit
the invalidation, then enter the location re-registration loop, whose
read-lock acquisition under the held write lock never completes (EditOutcome
hangs). The registry mutation happens before the save, so a failing save
still leaves the new name in the registry. -/
def editLib (saveRes : Except LMError Unit) (id : Uuid) (name : Option String)
    (description : Option String) (st : MgrState) : EditOutcome × MgrState :=
  match st.libraries.find? (fun l => l.id == id) with
  | none => (.err .libraryNotFound, st)
  | some library =>
    let newCfg : LibraryConfig :=
      { name := name.getD library.config.name
        description := description.getD library.config.description }
    let st1 := { st with
      libraries := updateFirst (fun l => l.id == id)
        (fun l => { l with config := newCfg }) st.libraries }
    match saveRes with
    | .error e => (.err e, st1)
    | .ok _ =>
      let st2 := { st1 with
        fs := st1.fs.writeConfig id newCfg
        invalidations := st1.invalidations ++ ["library.list"] }
      (.hangs, st2)

/-! Startup discovery: LibraryManager::new (manager.rs:139-204). -/

/-- Warn is a warning logged during the startup scan: a config file whose
filename does not parse as a uuid (manager.rs:172), or a config file whose
sibling database file is missing (manager.rs:180-183). -/
inductive Warn
  | invalidFilename (path : String)
  | missingDb (path : String)
  deriving DecidableEq, Repr

/-- DbProbe is the outcome of fs::metadata on the sibling `.db` file
(manager.rs:177-187). -/
inductive DbProbe
  | found
  | notFound
  | otherErr (code : Nat)
  deriving DecidableEq, Repr

/-- DirEntry is one directory entry seen by the startup scan, together with
the outcomes of the external calls made while examining it: entry.metadata(),
the filename parse, the database-file probe, LibraryConfig::read and
Self::load. -/
structure DirEntry where
  path : String
  metadataOk : Bool
  isFile : Bool
  ext : Option String
  stem : Option Uuid
  dbProbe : DbProbe
  configRead : Except LMError LibraryConfig
  loadRes : Except LMError Unit
  deriving Repr

/-- scanEntries models the read_dir loop of LibraryManager::new
(manager.rs:152-193): for each entry, a metadata failure is a hard FileIO
error; entries that are not `.sdlibrary` files are ignored; a malformed
filename or a missing sibling database file is skipped with a warning; any
other I/O error probing the database file is a hard FileIO error; config
read and load failures are hard errors; a fully loaded entry is pushed. -/
def scanEntries : List DirEntry → Except LMError (List Library × List Warn)
  | [] => .ok ([], [])
  | e :: rest =>
    if !e.metadataOk then .error (.fileIo e.path)
    else if e.isFile && e.ext == some "sdlibrary" then
      match e.stem with
      | none => (fun p => (p.1, Warn.invalidFilename e.path :: p.2)) <$> scanEntries rest
      | some id =>
        match e.dbProbe with
        | .notFound => (fun p => (p.1, Warn.missingDb e.path :: p.2)) <$> scanEntries rest
        | .otherErr _ => .error (.fileIo (e.path ++ ".db"))
        | .found =>
          match e.configRead with
          | .error er => .error er
          | .ok cfg =>
            match e.loadRes with
            | .error er => .error er
            | .ok _ => (fun p => (Library.mk id cfg :: p.1, p.2)) <$> scanEntries rest
    else scanEntries rest

/-- entryOfConfigFile renders an on-disk `<id>.sdlibrary` file as the
directory entry the startup scan sees for it: the stem parses back to the id,
the database probe reflects whether `<id>.db` exists, and reading the config
yields the stored contents. -/
def entryOfConfigFile (loadRes : Uuid → Except LMError Unit) (dbs : List Uuid)
    (p : Uuid × LibraryConfig) : DirEntry :=
  { path := toString p.1 ++ ".sdlibrary"
    metadataOk := true
    isFile := true
    ext := some "sdlibrary"
    stem := some p.1
    dbProbe := if dbs.contains p.1 then .found else .notFound
    configRead := .ok p.2
    loadRes := loadRes p.1 }

/-- entryOfDbFile renders an on-disk `<id>.db` file as a directory entry; its
extension is not "sdlibrary" so the scan ignores it. -/
def entryOfDbFile (id : Uuid) : DirEntry :=
  { path := toString id ++ ".db"
    metadataOk := true
    isFile := true
    ext := some "db"
    stem := some id
    dbProbe := .found
    configRead := .ok ⟨"", ""⟩
    loadRes := .ok () }

/-- managerNew models LibraryManager::new over a filesystem state: the
startup scan run on the directory entries induced by the files present. -/
def managerNew (loadRes : Uuid → Except LMError Unit) (fs : FsState) :
    Except LMError (List Library × List Warn) :=
  scanEntries (fs.configFiles.map (entryOfConfigFile loadRes fs.dbFiles) ++
    fs.dbFiles.map entryOfDbFile)

/-! Shallow indexer: shallow (shallow.rs:26-107). -/

/-- BATCH_SIZE is the number of files indexed per save step (shallow.rs:24). -/
def BATCH_SIZE : Nat := 1000

/-- chunksOf n splits a list into consecutive chunks of n elements, the last
chunk possibly shorter: the semantics of Itertools::chunks used at
shallow.rs:85. -/
def chunksOf (n : Nat) : List α → List (List α)
  | [] => []
  | x :: xs => (x :: xs.take (n - 1)) :: chunksOf n (xs.drop (n - 1))
  termination_by l => l.length
  decreasing_by simp [List.length_drop]; omega

/-- IndexerJobSaveStep: one batch of walked entries with its chunk index
(shallow.rs:93-96); walked entries are abstract tags. -/
structure IndexerJobSaveStep where
  chunkIdx : Nat
  walked : List Nat
  deriving DecidableEq, Repr

/-- mkSteps builds the save steps from the walked sequence exactly as
shallow.rs:84-98: chunks of BATCH_SIZE, enumerated in order. -/
def mkSteps (walked : List Nat) : List IndexerJobSaveStep :=
  (chunksOf BATCH_SIZE walked).enum.map (fun p => ⟨p.1, p.2⟩)

/-- JobError models the error type shallow returns; the payload is an
abstract code. -/
inductive JobError
  | indexer (code : Nat)
  | stepFailed (idx : Nat)
  deriving DecidableEq, Repr

/-- DbOp is one database-level/actor-level effect of a shallow scan, in
execution order: the single deletion of the to_remove ids (shallow.rs:80),
one save step per batch (shallow.rs:100-102), and the orphan-remover
invocation (shallow.rs:104). -/
inductive DbOp
  | removeNonExisting (ids : List Nat)
  | saveStep (step : IndexerJobSaveStep)
  | invokeOrphanRemover
  deriving DecidableEq, Repr

/-- ShallowEnv supplies the external-call outcomes of one shallow scan:
per-rule compilation, the sub-path checks, the walk, the deletion of
to_remove, and each save step (by chunk index). -/
structure ShallowEnv where
  rules : List Nat
  compileRes : Nat → Except JobError Unit
  subPath : String
  ensureInLocRes : Except JobError String
  ensureIsDirRes : Except JobError Unit
  checkExistsRes : Except JobError Bool
  walkRes : Except JobError (List Nat × List Nat × List String)
  removeRes : Except JobError Unit
  saveRes : Nat → Except JobError Unit

/-- ShallowResult: the effect trace (in order), the non-fatal walk errors
that were logged, the accumulated total of processed paths, and the scan's
outcome (none = Ok). -/
structure ShallowResult where
  trace : List DbOp
  logged : List String
  totalPaths : Nat
  outcome : Option JobError
  deriving DecidableEq, Repr

/-- collectExcept models `.map(..).collect::<Result<Vec<_>, _>>()`: the first
failure wins. -/
def collectExcept (f : Nat → Except JobError Unit) : List Nat → Except JobError Unit
  | [] => .ok ()
  | r :: rest =>
    match f r with
    | .error e => .error e
    | .ok _ => collectExcept f rest

/-- runSaves executes the save steps in order (shallow.rs:100-102), stopping
at the first failure; a step's effect is recorded exactly when it
succeeded. -/
def runSaves (saveRes : Nat → Except JobError Unit) :
    List IndexerJobSaveStep → List DbOp × Option JobError
  | [] => ([], none)
  | s :: rest =>
    match saveRes s.chunkIdx with
    | .error e => ([], some e)
    | .ok _ =>
      let p := runSaves saveRes rest
      (DbOp.saveStep s :: p.1, p.2)

/-- resolveSubPath models shallow.rs:43-62: when the sub-path is non-empty,
ensure it is inside the location and is a directory and check whether a path
record for it already exists (any failure aborts); an empty sub-path needs no
checks. -/
def resolveSubPath (env : ShallowEnv) : Except JobError Unit :=
  if env.subPath != "" then
    match env.ensureInLocRes with
    | .error e => .error e
    | .ok _ =>
      match env.ensureIsDirRes with
      | .error e => .error e
      | .ok _ =>
        match env.checkExistsRes with
        | .error e => .error e
        | .ok _ => .ok ()
  else .ok ()

/-- shallowScan models shallow (shallow.rs:26-107): compile the location's
indexer rules; resolve the sub-path (the checks run only when it is
non-empty); walk one directory level; log the walk's non-fatal errors; delete
the to_remove ids as one step; build the batched save steps, accumulating the
running total; execute them in order; finally invoke the orphan remover
once. -/
def shallowScan (env : ShallowEnv) : ShallowResult :=
  match collectExcept env.compileRes env.rules with
  | .error e => ⟨[], [], 0, some e⟩
  | .ok _ =>
    match resolveSubPath env with
    | .error e => ⟨[], [], 0, some e⟩
    | .ok _ =>
      match env.walkRes with
      | .error e => ⟨[], [], 0, some e⟩
      | .ok (walked, toRemove, errors) =>
        match env.removeRes with
        | .error e => ⟨[], errors, 0, some e⟩
        | .ok _ =>
          let steps := mkSteps walked
          let total := (steps.map (fun s => s.walked.length)).sum
          let p := runSaves env.saveRes steps
          match p.2 with
          | some e => ⟨DbOp.removeNonExisting toRemove :: p.1, errors, total, some e⟩
          | none =>
            ⟨DbOp.removeNonExisting toRemove :: p.1 ++ [DbOp.invokeOrphanRemover],
              errors, total, none⟩

/-! Key-manager seeding: seed_keymanager (manager.rs:86-136). -/

/-- RawKey is a persisted key record as read from the database
(client.key().find_many), with its stringly/bytes-typed fields. -/
structure RawKey where
  uuid : String
  version : String
  keyType : String
  algorithm : String
  contentSalt : List Nat
  masterKey : List Nat
  masterKeyNonce : List Nat
  keyNonce : List Nat
  key : List Nat
  hashingAlgorithm : String
  salt : List Nat
  isDefault : Bool
  automount : Bool
  deriving DecidableEq, Repr

/-- StoredKey is sd_crypto's parsed key record as seed_keymanager builds it
(manager.rs:107-125); parsed enum fields are abstract tags. -/
structure StoredKey where
  uuid : Uuid
  version : Nat
  keyType : Nat
  algorithm : Nat
  contentSalt : List Nat
  masterKey : List Nat
  masterKeyNonce : List Nat
  keyNonce : List Nat
  key : List Nat
  hashingAlgorithm : Nat
  salt : List Nat
  memoryOnly : Bool
  automount : Bool
  deriving DecidableEq, Repr

def SALT_LEN : Nat := 16
def ENCRYPTED_KEY_LEN : Nat := 48
def NONCE_LEN : Nat := 20

/-- Modelled from the spec: the shared shape of sd_crypto's TryFrom
conversions of persisted byte vectors into fixed-size key material (the
sd_crypto crate is part of this repository but not under src/). Per the
spec's data model (section 3) salts/nonces/ciphertext are fixed-size key
material, and its error taxonomy (section 7) classifies malformed persisted
key-record fields as serialization errors, so a byte vector of the wrong
length fails with Serialization through the Result. -/
def tryFromFixedLen (n : Nat) (b : List Nat) : Except CryptoError (List Nat) :=
  if b.length = n then .ok b else .error .serialization

/-- Modelled from the spec: sd_crypto's `Salt::try_from(Vec<u8>)`, see
tryFromFixedLen. -/
def Salt.tryFrom (b : List Nat) : Except CryptoError (List Nat) :=
  tryFromFixedLen SALT_LEN b

/-- Modelled from the spec: sd_crypto's `EncryptedKey::try_from(Vec<u8>)`,
see tryFromFixedLen. -/
def EncryptedKey.tryFrom (b : List Nat) : Except CryptoError (List Nat) :=
  tryFromFixedLen ENCRYPTED_KEY_LEN b

/-- Modelled from the spec: sd_crypto's `Nonce::try_from(Vec<u8>)`, see
tryFromFixedLen. -/
def Nonce.tryFrom (b : List Nat) : Except CryptoError (List Nat) :=
  tryFromFixedLen NONCE_LEN b

/-- KMEnv supplies the external parsers seed_keymanager calls on each stored
record: uuid::Uuid::from_str, the four serde_json::from_str parses (whose
failures are mapped to Serialization at manager.rs:109-121), and the
populate_keystore outcome. -/
structure KMEnv where
  parseUuid : String → Option Uuid
  parseVersion : String → Option Nat
  parseKeyType : String → Option Nat
  parseAlgorithm : String → Option Nat
  parseHashingAlgorithm : String → Option Nat
  populateRes : Except CryptoError Unit

/-- PanicOr distinguishes a Rust panic (expect) from a value returned
normally. -/
inductive PanicOr (α : Type)
  | panicked (msg : String)
  | ok (a : α)
  deriving DecidableEq, Repr

/-- parseFields evaluates the fallible field conversions of one record in
the source order of the struct literal at manager.rs:107-125 (version,
key_type, algorithm, content_salt, master_key, master_key_nonce, key_nonce,
hashing_algorithm, salt), short-circuiting at the first failure, and returns
the StoredKey minus its uuid. -/
def parseFields (env : KMEnv) (k : RawKey) : Except CryptoError (Uuid → StoredKey) :=
  match env.parseVersion k.version with
  | none => .error .serialization
  | some version =>
  match env.parseKeyType k.keyType with
  | none => .error .serialization
  | some keyType =>
  match env.parseAlgorithm k.algorithm with
  | none => .error .serialization
  | some algorithm =>
  match Salt.tryFrom k.contentSalt with
  | .error e => .error e
  | .ok contentSalt =>
  match EncryptedKey.tryFrom k.masterKey with
  | .error e => .error e
  | .ok masterKey =>
  match Nonce.tryFrom k.masterKeyNonce with
  | .error e => .error e
  | .ok masterKeyNonce =>
  match Nonce.tryFrom k.keyNonce with
  | .error e => .error e
  | .ok keyNonce =>
  match env.parseHashingAlgorithm k.hashingAlgorithm with
  | none => .error .serialization
  | some hashingAlgorithm =>
  match Salt.tryFrom k.salt with
  | .error e => .error e
  | .ok salt =>
    .ok (fun u =>
      { uuid := u, version, keyType, algorithm, contentSalt, masterKey,
        masterKeyNonce, keyNonce, key := k.key, hashingAlgorithm, salt,
        memoryOnly := false, automount := k.automount })

/-- collectKeys models `.iter().map(|key| ...).collect::<Result<Vec<_>,_>>()`
(manager.rs:98-127): records are processed lazily in order; within a record,
the uuid is parsed first via expect (a panic on failure, manager.rs:101),
then the default flag is latched, then the remaining fields are converted;
the first Err stops the iteration, so records after it are never touched. -/
def collectKeys (env : KMEnv) :
    List RawKey → Option Uuid → PanicOr (Except CryptoError (List StoredKey × Option Uuid))
  | [], dflt => .ok (.ok ([], dflt))
  | k :: rest, dflt =>
    match env.parseUuid k.uuid with
    | none => .panicked "invalid key id in the DB"
    | some u =>
      let dflt := if k.isDefault then some u else dflt
      match parseFields env k with
      | .error e => .ok (.error e)
      | .ok mk =>
        match collectKeys env rest dflt with
        | .panicked m => .panicked m
        | .ok (.error e) => .ok (.error e)
        | .ok (.ok (sks, d)) => .ok (.ok (mk u :: sks, d))

/-- seedKeymanager models seed_keymanager (manager.rs:86-136): read all key
records (a database failure is surfaced as Database), collect them into
StoredKeys (panicking on the first record reached whose uuid does not parse),
populate the keystore, and return the keystore contents together with the
default uuid pushed via set_default. -/
def seedKeymanager (env : KMEnv) (dbKeys : Except Nat (List RawKey)) :
    PanicOr (Except LMError (List StoredKey × Option Uuid)) :=
  match dbKeys with
  | .error c => .ok (.error (.database c))
  | .ok keys =>
    match collectKeys env keys none with
    | .panicked m => .panicked m
    | .ok (.error e) => .ok (.error (.keyManager e))
    | .ok (.ok (sks, d)) =>
      match env.populateRes with
      | .error e => .ok (.error (.keyManager e))
      | .ok _ => .ok (.ok (sks, d))

/-! Sync-forwarding task spawned by load (manager.rs:407-417). -/

/-- SyncMessage: the sync manager's event type. The source matches only the
Created variant (manager.rs:412); per the spec (section 6) events carry a
Created(op) variant among others, so the other kinds are abstracted into a
single tagged constructor. -/
inductive SyncMessage
  | created (op : Nat)
  | otherKind (tag : Nat)
  deriving DecidableEq, Repr

/-- BroadcastCall records one p2p.broadcast_sync_events(library_id, ops)
invocation (manager.rs:414). -/
structure BroadcastCall where
  libraryId : Uuid
  ops : List Nat
  deriving DecidableEq, Repr

/-- TaskExit: how the forwarding task ends. The while-let loop exits when
recv returns Err (channel closed) and the task completes normally, so the
only exit is clean. -/
inductive TaskExit
  | clean
  deriving DecidableEq, Repr

/-- syncForwardTask models the task spawned at manager.rs:407-417 on the
finite sequence of messages received before the channel closes: each Created
event is broadcast tagged with the library id; a let-else continue skips
every other kind; channel closure ends the loop and the task exits
cleanly. -/
def syncForwardTask (id : Uuid) : List SyncMessage → List BroadcastCall × TaskExit
  | [] => ([], .clean)
  | .created op :: rest =>
    let p := syncForwardTask id rest
    (⟨id, [op]⟩ :: p.1, p.2)
  | .otherKind _ :: rest => syncForwardTask id rest


/-- Concrete environments and states used by witnesses. -/
def envOk : CreateEnv := ⟨.ok (), .ok (), .ok ()⟩

def stOne : MgrState :=
  { fs := { configFiles := [(3, ⟨"Photos", ""⟩)], dbFiles := [3] }
    libraries := [⟨3, ⟨"Photos", ""⟩⟩]
    invalidations := [] }

def entryBadName : DirEntry :=
  ⟨"junk.sdlibrary", true, true, some "sdlibrary", none, .found, .ok ⟨"", ""⟩, .ok ()⟩

def entryNoDb : DirEntry :=
  ⟨"5.sdlibrary", true, true, some "sdlibrary", some 5, .notFound, .ok ⟨"", ""⟩, .ok ()⟩

def entryIoErr : DirEntry :=
  ⟨"6.sdlibrary", true, true, some "sdlibrary", some 6, .otherErr 13, .ok ⟨"", ""⟩, .ok ()⟩

def envShallow : ShallowEnv :=
  { rules := [0]
    compileRes := fun _ => .ok ()
    subPath := ""
    ensureInLocRes := .ok ""
    ensureIsDirRes := .ok ()
    checkExistsRes := .ok false
    walkRes := .ok ([1, 2, 3], [9], [])
    removeRes := .ok ()
    saveRes := fun _ => .ok () }

/-- isRemoveOp recognises the to_remove deletion step in a trace. -/
def isRemoveOp : DbOp → Bool
  | .removeNonExisting _ => true
  | _ => false

/-- isInvokeOp recognises the orphan-remover invocation in a trace. -/
def isInvokeOp : DbOp → Bool
  | .invokeOrphanRemover => true
  | _ => false

def rawKeyA : RawKey :=
  { uuid := "good", version := "BAD", keyType := "t", algorithm := "a"
    contentSalt := List.replicate 16 0, masterKey := List.replicate 48 0
    masterKeyNonce := List.replicate 20 0, keyNonce := List.replicate 20 0
    key := [], hashingAlgorithm := "h", salt := List.replicate 16 0
    isDefault := false, automount := false }

def rawKeyB : RawKey :=
  { rawKeyA with uuid := "BAD", version := "v" }

def envKM : KMEnv :=
  { parseUuid := fun s => if s = "good" then some 1 else none
    parseVersion := fun s => if s = "v" then some 1 else none
    parseKeyType := fun s => if s = "t" then some 1 else none
    parseAlgorithm := fun s => if s = "a" then some 1 else none
    parseHashingAlgorithm := fun s => if s = "h" then some 1 else none
    populateRes := .ok () }

/-! Theorems settling the claims. -/

/-- C9: the forwarding task spawned by load broadcasts every received Created
sync event to the peer-replication manager tagged with the library id, in
order, ignores every other event kind, and exits cleanly when the sync
channel closes. -/
theorem c9_sync_forwarding (id : Uuid) (msgs : List SyncMessage) :
    syncForwardTask id msgs =
      (msgs.filterMap (fun m =>
        match m with
        | .created op => some ⟨id, [op]⟩
        | .otherKind _ => none), .clean) := by
  induction msgs with
  | nil => rfl
  | cons m rest ih =>
    cases m <;> simp [syncForwardTask, List.filterMap_cons, ih]

/-- C4: create_with_uuid returns InvalidConfig for every config whose name is
empty or all-whitespace, without touching the state or performing any
effect; for any name that is neither (such as "Photos") it succeeds under a
failure-free environment, and the created library appears in the listing
with exactly that name. -/
theorem c4_create_name_validation :
    (∀ (env : CreateEnv) (id : Uuid) (cfg : LibraryConfig) (st : MgrState),
      (cfg.name.isEmpty || cfg.name.data.all rustIsWhitespace) = true →
      createWithUuid env id cfg st =
        (.error (.invalidConfig "name cannot be empty"), st, [])) ∧
    (∀ (env : CreateEnv) (id : Uuid) (name description : String) (st : MgrState),
      (name.isEmpty || name.data.all rustIsWhitespace) = false →
      env.saveRes = .ok () → env.loadRes = .ok () → env.seederRes = .ok () →
      (createWithUuid env id ⟨name, description⟩ st).1 =
        .ok ⟨id, ⟨name, description⟩⟩ ∧
      LibraryConfigWrapped.mk id ⟨name, description⟩ ∈
        getAllLibrariesConfig (createWithUuid env id ⟨name, description⟩ st).2.1) := by
  constructor
  · intro env id cfg st h
    simp [createWithUuid, h]
  · intro env id name description st h hs hl hsd
    simp [createWithUuid, h, hs, hl, hsd, getAllLibrariesConfig]

/-- c4 witness: " " is rejected with the state untouched, "Photos" succeeds
and is listed. -/
theorem c4_create_name_validation_witness :
    createWithUuid envOk 7 ⟨" ", ""⟩ MgrState.empty =
      (.error (.invalidConfig "name cannot be empty"), MgrState.empty, []) ∧
    (createWithUuid envOk 7 ⟨"Photos", ""⟩ MgrState.empty).1 =
      .ok ⟨7, ⟨"Photos", ""⟩⟩ ∧
    LibraryConfigWrapped.mk 7 ⟨"Photos", ""⟩ ∈
      getAllLibrariesConfig (createWithUuid envOk 7 ⟨"Photos", ""⟩ MgrState.empty).2.1 :=
  ⟨c4_create_name_validation.1 envOk 7 ⟨" ", ""⟩ MgrState.empty (by decide),
    (c4_create_name_validation.2 envOk 7 "Photos" "" MgrState.empty (by decide)
      rfl rfl rfl).1,
    (c4_create_name_validation.2 envOk 7 "Photos" "" MgrState.empty (by decide)
      rfl rfl rfl).2⟩

/-- C2: delete removes the library's database and config files; if either
removal fails, that error is returned and the registry is unchanged; the
registry entry is removed only once both removals have succeeded. -/
theorem c2_delete_atomicity (env : DeleteEnv) (id : Uuid) (st : MgrState)
    (lib : Library) (hfind : st.libraries.find? (fun l => l.id == id) = some lib) :
    (∀ e, env.removeDbRes = .error e →
      (deleteLib env id st).1 = .error e ∧
      (deleteLib env id st).2.libraries = st.libraries) ∧
    (∀ e, env.removeDbRes = .ok () → env.removeConfigRes = .error e →
      (deleteLib env id st).1 = .error e ∧
      (deleteLib env id st).2.libraries = st.libraries) ∧
    (env.removeDbRes = .ok () → env.removeConfigRes = .ok () →
      (deleteLib env id st).1 = .ok () ∧
      (deleteLib env id st).2.libraries = st.libraries.filter (fun l => l.id != id) ∧
      (deleteLib env id st).2.fs = (st.fs.removeDb id).removeConfig id) := by
  have hid : lib.id = id := by
    have := List.find?_some hfind
    simpa using this
  refine ⟨?_, ?_, ?_⟩
  · intro e hdb
    simp [deleteLib, hfind, hdb, Except.isOk, Except.toBool]
  · intro e hdb hcfg
    simp [deleteLib, hfind, hdb, hcfg, Except.isOk, Except.toBool]
  · intro hdb hcfg
    simp [deleteLib, hfind, hdb, hcfg, Except.isOk, Except.toBool, hid]

/-- c2 witness: on a registry holding library 3, a failing config-file
removal leaves the registry untouched, and a fully successful delete removes
the entry and both files. -/
theorem c2_delete_atomicity_witness :
    ((deleteLib ⟨.ok (), .error (.fileIo "3.sdlibrary")⟩ 3 stOne).1 =
        .error (.fileIo "3.sdlibrary") ∧
      (deleteLib ⟨.ok (), .error (.fileIo "3.sdlibrary")⟩ 3 stOne).2.libraries =
        stOne.libraries) ∧
    ((deleteLib ⟨.ok (), .ok ()⟩ 3 stOne).1 = .ok () ∧
      (deleteLib ⟨.ok (), .ok ()⟩ 3 stOne).2.libraries =
        stOne.libraries.filter (fun l => l.id != 3) ∧
      (deleteLib ⟨.ok (), .ok ()⟩ 3 stOne).2.fs =
        (stOne.fs.removeDb 3).removeConfig 3) :=
  ⟨(c2_delete_atomicity ⟨.ok (), .error (.fileIo "3.sdlibrary")⟩ 3 stOne
      ⟨3, ⟨"Photos", ""⟩⟩ rfl).2.1 (.fileIo "3.sdlibrary") rfl rfl,
    (c2_delete_atomicity ⟨.ok (), .ok ()⟩ 3 stOne
      ⟨3, ⟨"Photos", ""⟩⟩ rfl).2.2 rfl rfl⟩

/-- C1 counterexample: two successful create_with_uuid calls with the same id
both return Ok and leave TWO simultaneously registered Library entries with
that id — create_with_uuid never checks the registry for the id
(manager.rs:214-245 has no lookup before the push at manager.rs:243). -/
theorem c1_duplicate_id_counterexample :
    (createWithUuid envOk 0 ⟨"A", ""⟩ MgrState.empty).1 = .ok ⟨0, ⟨"A", ""⟩⟩ ∧
    (createWithUuid envOk 0 ⟨"A", ""⟩
        (createWithUuid envOk 0 ⟨"A", ""⟩ MgrState.empty).2.1).1 =
      .ok ⟨0, ⟨"A", ""⟩⟩ ∧
    ((createWithUuid envOk 0 ⟨"A", ""⟩
        (createWithUuid envOk 0 ⟨"A", ""⟩ MgrState.empty).2.1).2.1.libraries.countP
      (fun l => l.id == 0)) = 2 := by
  refine ⟨rfl, rfl, ?_⟩
  decide

/-- C1 amended: the registry does not enforce at-most-one entry per id: a
successful create_with_uuid appends its library to the registry
unconditionally, with no lookup or dedup by id, so a second successful call
with an id already registered leaves two entries sharing that id. -/
theorem c1_create_appends_unconditionally (env : CreateEnv) (id : Uuid)
    (cfg : LibraryConfig) (st : MgrState)
    (hname : (cfg.name.isEmpty || cfg.name.data.all rustIsWhitespace) = false)
    (hs : env.saveRes = .ok ()) (hl : env.loadRes = .ok ())
    (hsd : env.seederRes = .ok ()) :
    (createWithUuid env id cfg st).2.1.libraries = st.libraries ++ [⟨id, cfg⟩] := by
  simp [createWithUuid, hname, hs, hl, hsd]

/-- c1 witness: appending holds at a state that already contains the id. -/
theorem c1_create_appends_unconditionally_witness :
    (createWithUuid envOk 3 ⟨"Photos", ""⟩ stOne).2.1.libraries =
      stOne.libraries ++ [⟨3, ⟨"Photos", ""⟩⟩] :=
  c1_create_appends_unconditionally envOk 3 ⟨"Photos", ""⟩ stOne (by decide)
    rfl rfl rfl

/-- C7 counterexample: edit on a loaded library applies an all-whitespace
name with no validation (manager.rs:277-278) and persists it
(manager.rs:284-287): after editing library 3's name to " ", the registry
entry and the on-disk config file both carry the all-whitespace name. -/
theorem c7_edit_whitespace_counterexample :
    (editLib (.ok ()) 3 (some " ") none stOne).2.libraries =
      [⟨3, ⟨" ", ""⟩⟩] ∧
    (editLib (.ok ()) 3 (some " ") none stOne).2.fs.configFiles =
      [(3, ⟨" ", ""⟩)] ∧
    (" ").data.all rustIsWhitespace = true := by
  refine ⟨?_, ?_, by decide⟩ <;> rfl

/-- find?_updateFirst: updating the first element satisfying p with a
p-preserving f updates what find? returns. -/
theorem find?_updateFirst (p : Library → Bool) (f : Library → Library)
    (hpf : ∀ l, p l = true → p (f l) = true) :
    ∀ ls : List Library, (updateFirst p f ls).find? p = (ls.find? p).map f := by
  intro ls
  induction ls with
  | nil => rfl
  | cons l rest ih =>
    by_cases hp : p l = true
    · simp [updateFirst, hp, List.find?_cons, hpf l hp]
    · simp only [Bool.not_eq_true] at hp
      simp [updateFirst, hp, List.find?_cons, ih]

/-- C7 amended: create_with_uuid rejects empty/all-whitespace names, but edit
performs no name validation: on a loaded library, edit(id, Some(name), desc)
overwrites the registry entry's config with the given name as-is — even when
it is empty or all-whitespace — and persists that config to the library's
config file. -/
theorem c7_edit_skips_validation (id : Uuid) (name : String)
    (description : Option String) (st : MgrState) (lib : Library)
    (hfind : st.libraries.find? (fun l => l.id == id) = some lib) :
    (editLib (.ok ()) id (some name) description st).2.libraries.find?
        (fun l => l.id == id) =
      some { lib with config :=
        ⟨name, description.getD lib.config.description⟩ } ∧
    (editLib (.ok ()) id (some name) description st).2.fs =
      st.fs.writeConfig id ⟨name, description.getD lib.config.description⟩ := by
  constructor
  · simp only [editLib, hfind, Option.getD_some]
    rw [find?_updateFirst (fun l => l.id == id)
      (fun l => { l with config := ⟨name, description.getD lib.config.description⟩ })
      (fun l h => h)]
    simp [hfind]
  · simp [editLib, hfind]

/-- c7 witness: editing library 3's name to the empty string updates the
registry entry and the config file to the empty name. -/
theorem c7_edit_skips_validation_witness :
    (editLib (.ok ()) 3 (some "") none stOne).2.libraries.find?
        (fun l => l.id == 3) = some ⟨3, ⟨"", ""⟩⟩ ∧
    (editLib (.ok ()) 3 (some "") none stOne).2.fs =
      stOne.fs.writeConfig 3 ⟨"", ""⟩ :=
  c7_edit_skips_validation 3 "" none stOne ⟨3, ⟨"Photos", ""⟩⟩ rfl

/-- createWithUuid_trace_shape: the effect trace of create_with_uuid is one
of four prefixes of the full effect sequence, so effects always occur in the
fixed program order save-config, create-db, seed, invalidate, push. -/
theorem createWithUuid_trace_shape (env : CreateEnv) (id : Uuid)
    (cfg : LibraryConfig) (st : MgrState) :
    (createWithUuid env id cfg st).2.2 = [] ∨
    (createWithUuid env id cfg st).2.2 = [.saveConfig id cfg] ∨
    (createWithUuid env id cfg st).2.2 = [.saveConfig id cfg, .createDb id] ∨
    (createWithUuid env id cfg st).2.2 =
      [.saveConfig id cfg, .createDb id, .seed, .invalidate "library.list",
        .pushRegistry id] := by
  unfold createWithUuid
  split
  · left; rfl
  · split
    · left; rfl
    · split
      · right; left; rfl
      · split
        · right; right; left; rfl
        · right; right; right; rfl

/-- C3: create_with_uuid persists the config file strictly before any
database work (every createDb effect in its trace is preceded by the
saveConfig effect); the on-disk state at any crash point after config
persistence but before database creation is exactly the config file alone;
and a subsequent startup scan over that state succeeds, skipping the library
with a missing-database warning and registering nothing. -/
theorem c3_config_before_database :
    (∀ (env : CreateEnv) (id : Uuid) (cfg : LibraryConfig) (st : MgrState) (j : Nat),
      ((createWithUuid env id cfg st).2.2)[j]? = some (.createDb id) →
      ∃ i, i < j ∧ ((createWithUuid env id cfg st).2.2)[i]? =
        some (.saveConfig id cfg)) ∧
    (∀ (env : CreateEnv) (id : Uuid) (cfg : LibraryConfig) (k : Nat),
      CreateEffect.saveConfig id cfg ∈
        ((createWithUuid env id cfg MgrState.empty).2.2).take k →
      (∀ i, CreateEffect.createDb i ∉
        ((createWithUuid env id cfg MgrState.empty).2.2).take k) →
      applyCreateEffects FsState.empty
          (((createWithUuid env id cfg MgrState.empty).2.2).take k) =
        FsState.empty.writeConfig id cfg) ∧
    (∀ (loadRes : Uuid → Except LMError Unit) (id : Uuid) (cfg : LibraryConfig),
      managerNew loadRes (FsState.empty.writeConfig id cfg) =
        .ok ([], [.missingDb (toString id ++ ".sdlibrary")])) := by
  refine ⟨?_, ?_, ?_⟩
  · intro env id cfg st j hj
    rcases createWithUuid_trace_shape env id cfg st with h | h | h | h <;>
      rw [h] at hj ⊢
    · simp at hj
    · rcases j with _ | j
      · simp at hj
      · exact ⟨0, j.succ_pos, rfl⟩
    · rcases j with _ | j
      · simp at hj
      · exact ⟨0, j.succ_pos, rfl⟩
    · rcases j with _ | j
      · simp at hj
      · exact ⟨0, j.succ_pos, rfl⟩
  · intro env id cfg k hmem hnone
    rcases createWithUuid_trace_shape env id cfg MgrState.empty with h | h | h | h <;>
      rw [h] at hmem hnone ⊢
    · simp at hmem
    · rcases k with _ | k
      · simp at hmem
      · simp [applyCreateEffects, FsState.empty, FsState.writeConfig]
    · rcases k with _ | _ | k
      · simp at hmem
      · rfl
      · exact absurd (by simp) (hnone id)
    · rcases k with _ | _ | k
      · simp at hmem
      · rfl
      · exact absurd (by simp) (hnone id)
  · intro loadRes id cfg
    rfl

/-- c3 witness: with a load environment that fails at the database step, the
trace of creating library 9 from the empty state is exactly the config save;
applying that one-effect prefix leaves only the config file, and the startup
scan over it skips library 9 with a warning. -/
theorem c3_config_before_database_witness :
    applyCreateEffects FsState.empty
        (((createWithUuid ⟨.ok (), .error (.migration "crash"), .ok ()⟩ 9
          ⟨"Photos", ""⟩ MgrState.empty).2.2).take 1) =
      FsState.empty.writeConfig 9 ⟨"Photos", ""⟩ ∧
    managerNew (fun _ => .ok ()) (FsState.empty.writeConfig 9 ⟨"Photos", ""⟩) =
      .ok ([], [.missingDb "9.sdlibrary"]) :=
  ⟨c3_config_before_database.2.1 ⟨.ok (), .error (.migration "crash"), .ok ()⟩ 9
      ⟨"Photos", ""⟩ 1 (by decide)
      (by
        intro i h
        have htr : (createWithUuid ⟨.ok (), .error (.migration "crash"), .ok ()⟩ 9
            ⟨"Photos", ""⟩ MgrState.empty).2.2 =
            [CreateEffect.saveConfig 9 ⟨"Photos", ""⟩] := rfl
        rw [htr] at h
        simp at h),
    c3_config_before_database.2.2 (fun _ => .ok ()) 9 ⟨"Photos", ""⟩⟩

/-- C8: during the startup scan, an `.sdlibrary` entry whose filename does
not parse as a library id is skipped with a warning, and one whose sibling
database file is absent is skipped with a warning — in both cases the rest
of the scan proceeds and its outcome is kept, with no entry registered for
the skipped file — while any other I/O error probing the database file makes
the scan return a hard FileIO error. -/
theorem c8_startup_scan_skips (e : DirEntry) (rest : List DirEntry)
    (hm : e.metadataOk = true) (hf : e.isFile = true)
    (he : e.ext = some "sdlibrary") :
    (∀ ls ws, e.stem = none → scanEntries rest = .ok (ls, ws) →
      scanEntries (e :: rest) = .ok (ls, .invalidFilename e.path :: ws)) ∧
    (∀ id ls ws, e.stem = some id → e.dbProbe = .notFound →
      scanEntries rest = .ok (ls, ws) →
      scanEntries (e :: rest) = .ok (ls, .missingDb e.path :: ws)) ∧
    (∀ id c, e.stem = some id → e.dbProbe = .otherErr c →
      scanEntries (e :: rest) = .error (.fileIo (e.path ++ ".db"))) := by
  refine ⟨?_, ?_, ?_⟩
  · intro ls ws hstem hrest
    simp [scanEntries, hm, hf, he, hstem, hrest, Except.map]
  · intro id ls ws hstem hprobe hrest
    simp [scanEntries, hm, hf, he, hstem, hprobe, hrest, Except.map]
  · intro id c hstem hprobe
    simp [scanEntries, hm, hf, he, hstem, hprobe]

/-- c8 witness: a malformed filename and a missing database each produce a
skip-with-warning and a successful scan; another I/O error is a hard FileIO
failure. -/
theorem c8_startup_scan_skips_witness :
    scanEntries [entryBadName] = .ok ([], [.invalidFilename "junk.sdlibrary"]) ∧
    scanEntries [entryNoDb] = .ok ([], [.missingDb "5.sdlibrary"]) ∧
    scanEntries [entryIoErr] = .error (.fileIo "6.sdlibrary.db") :=
  ⟨(c8_startup_scan_skips entryBadName [] rfl rfl rfl).1 [] [] rfl rfl,
    (c8_startup_scan_skips entryNoDb [] rfl rfl rfl).2.1 5 [] [] rfl rfl rfl,
    (c8_startup_scan_skips entryIoErr [] rfl rfl rfl).2.2 6 13 rfl rfl⟩

/-- chunksOf_flatten: concatenating the chunks gives back the original list, so
batching preserves both the entries and their order. -/
theorem chunksOf_flatten (n : Nat) (l : List α) : (chunksOf n l).flatten = l := by
  induction l using chunksOf.induct (n := n) with
  | case1 => simp [chunksOf]
  | case2 x xs ih => simp [chunksOf, ih, List.take_append_drop]

/-- chunksOf_length: a list of length N splits into ceil(N/n) chunks. -/
theorem chunksOf_length (n : Nat) (hn : 0 < n) (l : List α) :
    (chunksOf n l).length = (l.length + n - 1) / n := by
  induction l using chunksOf.induct (n := n) with
  | case1 =>
    have h0 : (0 + n - 1) / n = 0 := Nat.div_eq_of_lt (by omega)
    simpa [chunksOf] using h0.symm
  | case2 x xs ih =>
    have hdl : (xs.drop (n - 1)).length = xs.length - (n - 1) :=
      List.length_drop _ _
    simp only [chunksOf, List.length_cons]
    rw [ih, hdl]
    rcases le_or_lt (n - 1) xs.length with h | h
    · have hnum : xs.length - (n - 1) + n - 1 = xs.length := by omega
      have h2 : xs.length + 1 + n - 1 = xs.length + n := by omega
      rw [hnum, h2, Nat.add_div_right _ hn]
    · have hnum : xs.length - (n - 1) + n - 1 = n - 1 := by omega
      have h1 : (n - 1) / n = 0 := Nat.div_eq_of_lt (by omega)
      have h2 : xs.length + 1 + n - 1 = xs.length + n := by omega
      rw [hnum, h1, h2, Nat.add_div_right _ hn, Nat.div_eq_of_lt (by omega)]

/-- chunksOf_length_le: every chunk has at most n entries. -/
theorem chunksOf_length_le (n : Nat) (hn : 0 < n) (l : List α) :
    ∀ c ∈ chunksOf n l, c.length ≤ n := by
  induction l using chunksOf.induct (n := n) with
  | case1 => intro c hc; simp [chunksOf] at hc
  | case2 x xs ih =>
    intro c hc
    simp only [chunksOf, List.mem_cons] at hc
    rcases hc with rfl | hc
    · have h2 : (xs.take (n - 1)).length ≤ n - 1 := by
        rw [List.length_take]; omega
      simp only [List.length_cons]
      omega
    · exact ih c hc

/-- mkSteps_walked: the save steps carry exactly the chunks of the walked
sequence, in order. -/
theorem mkSteps_walked (walked : List Nat) :
    (mkSteps walked).map (fun s => s.walked) = chunksOf BATCH_SIZE walked := by
  show ((chunksOf BATCH_SIZE walked).enum.map
      (fun p => (⟨p.1, p.2⟩ : IndexerJobSaveStep))).map (fun s => s.walked) =
    chunksOf BATCH_SIZE walked
  rw [List.map_map]
  exact List.enum_map_snd _

/-- mkSteps_length: the number of save steps is the number of chunks. -/
theorem mkSteps_length (walked : List Nat) :
    (mkSteps walked).length = (chunksOf BATCH_SIZE walked).length := by
  simp [mkSteps]

/-- mkSteps_sum: the total of entry counts across the save steps is the
number of walked entries. -/
theorem mkSteps_sum (walked : List Nat) :
    ((mkSteps walked).map (fun s => s.walked.length)).sum = walked.length := by
  have h1 : (mkSteps walked).map (fun s => s.walked.length) =
      ((mkSteps walked).map (fun s => s.walked)).map List.length := by
    rw [List.map_map]; rfl
  rw [h1, mkSteps_walked, ← List.length_flatten, chunksOf_flatten]

/-- runSaves_all_ok: when every save step succeeds, the executed effects are
one save per step, in step order, with no error. -/
theorem runSaves_all_ok (f : Nat → Except JobError Unit)
    (h : ∀ i, f i = .ok ()) (steps : List IndexerJobSaveStep) :
    runSaves f steps = (steps.map DbOp.saveStep, none) := by
  induction steps with
  | nil => rfl
  | cons s rest ih => simp [runSaves, h s.chunkIdx, ih]

/-- runSaves_mem_saveStep: every effect recorded by the save loop is a save
step. -/
theorem runSaves_mem_saveStep (f : Nat → Except JobError Unit) :
    ∀ (steps : List IndexerJobSaveStep) (op : DbOp),
      op ∈ (runSaves f steps).1 → ∃ s, op = DbOp.saveStep s := by
  intro steps
  induction steps with
  | nil => intro op h; simp [runSaves] at h
  | cons s rest ih =>
    intro op h
    cases hf : f s.chunkIdx with
    | error e => rw [runSaves, hf] at h; simp at h
    | ok u =>
      cases u
      rw [runSaves, hf] at h
      simp only [List.mem_cons] at h
      rcases h with rfl | h
      · exact ⟨s, rfl⟩
      · exact ih op h

/-- shallowScan_ok: a failure-free scan performs the removal, one save per
batch in order, and the final orphan invocation, reporting the walked count
and an Ok outcome. -/
theorem shallowScan_ok (env : ShallowEnv) (walked toRemove : List Nat)
    (errors : List String)
    (hc : collectExcept env.compileRes env.rules = .ok ())
    (hs : resolveSubPath env = .ok ())
    (hw : env.walkRes = .ok (walked, toRemove, errors))
    (hr : env.removeRes = .ok ())
    (hsave : ∀ i, env.saveRes i = .ok ()) :
    shallowScan env =
      ⟨DbOp.removeNonExisting toRemove ::
          ((mkSteps walked).map DbOp.saveStep ++ [DbOp.invokeOrphanRemover]),
        errors, walked.length, none⟩ := by
  simp [shallowScan, hc, hs, hw, hr, runSaves_all_ok env.saveRes hsave,
    mkSteps_sum]

/-- C5: under a failure-free environment, a shallow scan over N walked
entries executes exactly the batched save steps, one per chunk of at most
1000 entries: the number of save steps is ceil(N/1000), their entry counts
sum to N (this is also the accumulated total), and their concatenation is
the walked sequence in walk order. -/
theorem c5_batch_completeness (env : ShallowEnv) (walked toRemove : List Nat)
    (errors : List String)
    (hc : collectExcept env.compileRes env.rules = .ok ())
    (hs : resolveSubPath env = .ok ())
    (hw : env.walkRes = .ok (walked, toRemove, errors))
    (hr : env.removeRes = .ok ())
    (hsave : ∀ i, env.saveRes i = .ok ()) :
    shallowScan env =
      ⟨DbOp.removeNonExisting toRemove ::
          ((mkSteps walked).map DbOp.saveStep ++ [DbOp.invokeOrphanRemover]),
        errors, walked.length, none⟩ ∧
    (mkSteps walked).length = (walked.length + BATCH_SIZE - 1) / BATCH_SIZE ∧
    ((mkSteps walked).map (fun s => s.walked)).flatten = walked ∧
    (∀ s ∈ mkSteps walked, s.walked.length ≤ BATCH_SIZE) := by
  refine ⟨shallowScan_ok env walked toRemove errors hc hs hw hr hsave, ?_, ?_, ?_⟩
  · rw [mkSteps_length, chunksOf_length BATCH_SIZE (by decide)]
  · rw [mkSteps_walked, chunksOf_flatten]
  · intro s hs'
    have := chunksOf_length_le BATCH_SIZE (by decide) walked s.walked
    apply this
    rw [← mkSteps_walked]
    exact List.mem_map_of_mem _ hs'

/-- c5 witness: a failure-free scan over three walked entries performs the
deletion, one save step, and the orphan invocation, with ceil(3/1000) = 1
step whose entries are the walk in order. -/
theorem c5_batch_completeness_witness :
    shallowScan envShallow =
      ⟨DbOp.removeNonExisting [9] ::
          ((mkSteps [1, 2, 3]).map DbOp.saveStep ++ [DbOp.invokeOrphanRemover]),
        [], 3, none⟩ ∧
    (mkSteps [1, 2, 3]).length = (3 + BATCH_SIZE - 1) / BATCH_SIZE ∧
    ((mkSteps [1, 2, 3]).map (fun s => s.walked)).flatten = [1, 2, 3] :=
  ⟨(c5_batch_completeness envShallow [1, 2, 3] [9] [] rfl rfl rfl rfl
      (fun _ => rfl)).1,
    (c5_batch_completeness envShallow [1, 2, 3] [9] [] rfl rfl rfl rfl
      (fun _ => rfl)).2.1,
    (c5_batch_completeness envShallow [1, 2, 3] [9] [] rfl rfl rfl rfl
      (fun _ => rfl)).2.2.1⟩

/-- countP_saves_zero: a list of save steps contains no removal and no
invocation. -/
theorem countP_saves_zero (p : DbOp → Bool) (h : ∀ s, p (DbOp.saveStep s) = false)
    (ops : List DbOp) (hops : ∀ op ∈ ops, ∃ s, op = DbOp.saveStep s) :
    ops.countP p = 0 := by
  rw [List.countP_eq_zero]
  intro op hop
  rcases hops op hop with ⟨s, rfl⟩
  simp [h s]

/-- C6: in every shallow scan, the deletion of the to_remove ids is a single
step that precedes every save step in the effect trace, the orphan remover
is invoked at most once, and when the scan completes it is invoked exactly
once, as the last effect, after all save steps. -/
theorem c6_remove_first_invoke_last (env : ShallowEnv) :
    ((shallowScan env).trace.countP isRemoveOp ≤ 1) ∧
    (∀ (j : Nat) (s : IndexerJobSaveStep),
      ((shallowScan env).trace)[j]? = some (DbOp.saveStep s) →
      ∃ (i : Nat) (ids : List Nat), i < j ∧
        ((shallowScan env).trace)[i]? = some (DbOp.removeNonExisting ids)) ∧
    ((shallowScan env).trace.countP isInvokeOp ≤ 1) ∧
    ((shallowScan env).outcome = none →
      (shallowScan env).trace.getLast? = some DbOp.invokeOrphanRemover ∧
      (shallowScan env).trace.countP isInvokeOp = 1) := by
  have hshape :
      (shallowScan env).trace = [] ∧ (shallowScan env).outcome ≠ none ∨
      (∃ ids ops,
        (shallowScan env).trace = DbOp.removeNonExisting ids :: ops ∧
        (∀ op ∈ ops, ∃ s, op = DbOp.saveStep s) ∧
        (shallowScan env).outcome ≠ none) ∨
      (∃ ids ops,
        (shallowScan env).trace =
          DbOp.removeNonExisting ids :: (ops ++ [DbOp.invokeOrphanRemover]) ∧
        (∀ op ∈ ops, ∃ s, op = DbOp.saveStep s)) := by
    unfold shallowScan
    rcases collectExcept env.compileRes env.rules with e | u
    · exact Or.inl ⟨rfl, by simp⟩
    · cases u
      rcases resolveSubPath env with e | u
      · exact Or.inl ⟨rfl, by simp⟩
      · cases u
        rcases env.walkRes with e | w
        · exact Or.inl ⟨rfl, by simp⟩
        · rcases w with ⟨walked, toRemove, errors⟩
          rcases env.removeRes with e | u
          · exact Or.inl ⟨rfl, by simp⟩
          · cases u
            rcases hp : (runSaves env.saveRes (mkSteps walked)).2 with _ | e
            · refine Or.inr (Or.inr ⟨toRemove,
                (runSaves env.saveRes (mkSteps walked)).1, ?_, ?_⟩)
              · simp [hp]
              · exact runSaves_mem_saveStep env.saveRes (mkSteps walked)
            · refine Or.inr (Or.inl ⟨toRemove,
                (runSaves env.saveRes (mkSteps walked)).1, ?_, ?_, ?_⟩)
              · simp [hp]
              · exact runSaves_mem_saveStep env.saveRes (mkSteps walked)
              · simp [hp]
  rcases hshape with ⟨htr, hout⟩ | ⟨ids, ops, htr, hops, hout⟩ |
      ⟨ids, ops, htr, hops⟩
  · rw [htr]
    exact ⟨by simp, fun j s hj => by simp at hj, by simp,
      fun h => absurd h hout⟩
  · rw [htr]
    refine ⟨?_, ?_, ?_, fun h => absurd h hout⟩
    · rw [List.countP_cons]
      have h0 : ops.countP isRemoveOp = 0 :=
        countP_saves_zero isRemoveOp (fun _ => rfl) ops hops
      simp [h0, isRemoveOp]
    · intro j s hj
      rcases j with _ | j
      · simp at hj
      · exact ⟨0, ids, j.succ_pos, by simp⟩
    · rw [List.countP_cons]
      have h0 : ops.countP isInvokeOp = 0 :=
        countP_saves_zero isInvokeOp (fun _ => rfl) ops hops
      simp [h0, isInvokeOp]
  · rw [htr]
    have h0 : ops.countP isInvokeOp = 0 :=
      countP_saves_zero isInvokeOp (fun _ => rfl) ops hops
    have h0r : ops.countP isRemoveOp = 0 :=
      countP_saves_zero isRemoveOp (fun _ => rfl) ops hops
    refine ⟨?_, ?_, ?_, fun _ => ⟨?_, ?_⟩⟩
    · rw [List.countP_cons, List.countP_append, h0r]
      simp [isRemoveOp, List.countP_cons]
    · intro j s hj
      rcases j with _ | j
      · simp at hj
      · exact ⟨0, ids, j.succ_pos, by simp⟩
    · rw [List.countP_cons, List.countP_append, h0]
      simp [isInvokeOp, List.countP_cons]
    · rw [← List.cons_append, List.getLast?_concat]
    · rw [List.countP_cons, List.countP_append, h0]
      simp [isInvokeOp, List.countP_cons]

/-- c6 witness: on the concrete failure-free environment, the completed
scan's trace ends with the single orphan invocation. -/
theorem c6_remove_first_invoke_last_witness :
    (shallowScan envShallow).trace.getLast? = some DbOp.invokeOrphanRemover ∧
    (shallowScan envShallow).trace.countP isInvokeOp = 1 ∧
    (shallowScan envShallow).trace.countP isRemoveOp ≤ 1 := by
  have hout : (shallowScan envShallow).outcome = none := by
    rw [shallowScan_ok envShallow [1, 2, 3] [9] [] rfl rfl rfl rfl (fun _ => rfl)]
  exact ⟨((c6_remove_first_invoke_last envShallow).2.2.2 hout).1,
    ((c6_remove_first_invoke_last envShallow).2.2.2 hout).2,
    (c6_remove_first_invoke_last envShallow).1⟩

/-- tryFromFixedLen_error: the spec-modelled conversions only fail with
Serialization. -/
theorem tryFromFixedLen_error (n : Nat) (b : List Nat) (e : CryptoError)
    (h : tryFromFixedLen n b = .error e) : e = .serialization := by
  unfold tryFromFixedLen at h
  split at h
  · exact absurd h (by simp)
  · exact (Except.error.inj h).symm

/-- parseFields_error_serialization: every field-conversion failure inside
the key-record closure surfaces as a Serialization error. -/
theorem parseFields_error_serialization (env : KMEnv) (k : RawKey)
    (e : CryptoError) (h : parseFields env k = .error e) : e = .serialization := by
  unfold parseFields at h
  repeat' split at h
  all_goals first
    | (rename_i e2 heq
       rw [← Except.error.inj h]
       exact tryFromFixedLen_error _ _ e2 heq)
    | exact (Except.error.inj h).symm
    | exact absurd h (by simp)

/-- collectKeys_panic: when every record before k parses fully and k's uuid
does not parse, the collection panics with the expect message. -/
theorem collectKeys_panic (env : KMEnv) :
    ∀ (pre : List RawKey) (k : RawKey) (rest : List RawKey) (dflt : Option Uuid),
      (∀ p ∈ pre, (env.parseUuid p.uuid).isSome = true ∧
        (parseFields env p).isOk = true) →
      env.parseUuid k.uuid = none →
      collectKeys env (pre ++ k :: rest) dflt =
        .panicked "invalid key id in the DB" := by
  intro pre
  induction pre with
  | nil =>
    intro k rest dflt _ hk
    simp [collectKeys, hk]
  | cons p ps ih =>
    intro k rest dflt hpre hk
    obtain ⟨hu, hf⟩ := hpre p (List.mem_cons_self _ _)
    rcases hu' : env.parseUuid p.uuid with _ | u
    · rw [hu'] at hu; simp at hu
    · rcases hf' : parseFields env p with e | mk
      · rw [hf'] at hf; simp [Except.isOk, Except.toBool] at hf
      · have hrec := ih k rest (if p.isDefault then some u else dflt)
          (fun q hq => hpre q (List.mem_cons_of_mem _ hq)) hk
        simp only [List.cons_append, collectKeys, hu', hf', List.append_eq, hrec]

/-- collectKeys_first_error: when every record before k parses fully, k's
uuid parses, and one of k's other fields does not, the collection returns
that error through the Result (no panic); records after k are never
reached. -/
theorem collectKeys_first_error (env : KMEnv) :
    ∀ (pre : List RawKey) (k : RawKey) (rest : List RawKey) (dflt : Option Uuid)
      (u : Uuid) (e : CryptoError),
      (∀ p ∈ pre, (env.parseUuid p.uuid).isSome = true ∧
        (parseFields env p).isOk = true) →
      env.parseUuid k.uuid = some u →
      parseFields env k = .error e →
      collectKeys env (pre ++ k :: rest) dflt = .ok (.error e) := by
  intro pre
  induction pre with
  | nil =>
    intro k rest dflt u e _ hk he
    simp [collectKeys, hk, he]
  | cons p ps ih =>
    intro k rest dflt u e hpre hk he
    obtain ⟨hu, hf⟩ := hpre p (List.mem_cons_self _ _)
    rcases hu' : env.parseUuid p.uuid with _ | u'
    · rw [hu'] at hu; simp at hu
    · rcases hf' : parseFields env p with e' | mk
      · rw [hf'] at hf; simp [Except.isOk, Except.toBool] at hf
      · have hrec := ih k rest (if p.isDefault then some u' else dflt) u e
          (fun q hq => hpre q (List.mem_cons_of_mem _ hq)) hk he
        simp only [List.cons_append, collectKeys, hu', hf', List.append_eq, hrec]

/-- collectKeys_no_panic: when every record's uuid parses, the collection
never panics: every failure goes through the Result. -/
theorem collectKeys_no_panic (env : KMEnv) :
    ∀ (keys : List RawKey) (dflt : Option Uuid) (m : String),
      (∀ k ∈ keys, (env.parseUuid k.uuid).isSome = true) →
      collectKeys env keys dflt ≠ .panicked m := by
  intro keys
  induction keys with
  | nil => intro dflt m _ h; simp [collectKeys] at h
  | cons k ks ih =>
    intro dflt m hall h
    have hu := hall k (List.mem_cons_self _ _)
    rcases hu' : env.parseUuid k.uuid with _ | u
    · rw [hu'] at hu; simp at hu
    · rcases hf : parseFields env k with e | mk
      · simp only [collectKeys, hu', hf] at h
        exact PanicOr.noConfusion h
      · simp only [collectKeys, hu', hf] at h
        rcases hrec : collectKeys env ks (if k.isDefault then some u else dflt)
          with m' | v
        · exact ih _ m' (fun q hq => hall q (List.mem_cons_of_mem _ hq)) hrec
        · rw [hrec] at h
          rcases v with e | p
          · simp at h
          · simp at h

/-- C10 counterexample: with the first record failing on its version field
and the second record carrying an invalid uuid, seed_keymanager does NOT
panic: the lazy collect short-circuits at the first record's Serialization
error and the second record's uuid is never parsed — refuting "if any stored
key record's uuid field is not a valid UUID string it panics". -/
theorem c10_counterexample :
    envKM.parseUuid rawKeyB.uuid = none ∧
    seedKeymanager envKM (.ok [rawKeyA, rawKeyB]) =
      .ok (.error (.keyManager .serialization)) ∧
    seedKeymanager envKM (.ok [rawKeyA, rawKeyB]) ≠
      .panicked "invalid key id in the DB" := by
  refine ⟨rfl, rfl, ?_⟩
  intro h
  rw [show seedKeymanager envKM (.ok [rawKeyA, rawKeyB]) =
    .ok (.error (.keyManager .serialization)) from rfl] at h
  exact PanicOr.noConfusion h

/-- C10 amended: seed_keymanager is not total: it panics (via expect, with
message "invalid key id in the DB") exactly when the first record that fails
to parse fails on its uuid field; a first-failing record whose uuid parses
but whose other fields (version, key type, algorithm, hashing algorithm,
salts, nonces, ciphertext) are malformed is surfaced as a Serialization
error through the Result, and an invalid uuid in a record after such a
failure is never reached; when every record's uuid is valid, seed_keymanager
never panics. -/
theorem c10_uuid_panic_vs_result :
    (∀ (env : KMEnv) (pre : List RawKey) (k : RawKey) (rest : List RawKey),
      (∀ p ∈ pre, (env.parseUuid p.uuid).isSome = true ∧
        (parseFields env p).isOk = true) →
      env.parseUuid k.uuid = none →
      seedKeymanager env (.ok (pre ++ k :: rest)) =
        .panicked "invalid key id in the DB") ∧
    (∀ (env : KMEnv) (pre : List RawKey) (k : RawKey) (rest : List RawKey)
      (u : Uuid) (e : CryptoError),
      (∀ p ∈ pre, (env.parseUuid p.uuid).isSome = true ∧
        (parseFields env p).isOk = true) →
      env.parseUuid k.uuid = some u →
      parseFields env k = .error e →
      seedKeymanager env (.ok (pre ++ k :: rest)) =
        .ok (.error (.keyManager .serialization))) ∧
    (∀ (env : KMEnv) (keys : List RawKey) (m : String),
      (∀ k ∈ keys, (env.parseUuid k.uuid).isSome = true) →
      seedKeymanager env (.ok keys) ≠ .panicked m) := by
  refine ⟨?_, ?_, ?_⟩
  · intro env pre k rest hpre hk
    have hc := collectKeys_panic env pre k rest none hpre hk
    simp only [seedKeymanager, hc]
  · intro env pre k rest u e hpre hk he
    have hc := collectKeys_first_error env pre k rest none u e hpre hk he
    have hser := parseFields_error_serialization env k e he
    subst hser
    simp only [seedKeymanager, hc]
  · intro env keys m hall h
    simp only [seedKeymanager] at h
    rcases hrec : collectKeys env keys none with m' | v
    · exact collectKeys_no_panic env keys none m' hall hrec
    · rw [hrec] at h
      rcases v with e | p
      · simp at h
      · rcases hp : env.populateRes with e | u <;> rw [hp] at h <;> simp at h

/-- c10 witness: a single record with an invalid uuid panics; a single
record with a valid uuid but malformed version returns a Serialization
error. -/
theorem c10_uuid_panic_vs_result_witness :
    seedKeymanager envKM (.ok [rawKeyB]) = .panicked "invalid key id in the DB" ∧
    seedKeymanager envKM (.ok [rawKeyA]) =
      .ok (.error (.keyManager .serialization)) :=
  ⟨c10_uuid_panic_vs_result.1 envKM [] rawKeyB []
      (fun p hp => absurd hp (List.not_mem_nil p)) rfl,
    c10_uuid_panic_vs_result.2.1 envKM [] rawKeyA [] 1 .serialization
      (fun p hp => absurd hp (List.not_mem_nil p)) rfl rfl⟩

end Spacedrive
